import Mathlib

/-!
Verification of the battle/progression engine of the BD-BOT repository
(`src/bot.py`, `src/database.py`) against its natural-language specification.

The Python code is shallowly embedded: Python ints are `ℤ` (or `ℕ` where the
source keeps a value non-negative by construction), Python floats are `ℚ`,
Python dicts keyed by strings are association lists `List (String × _)` with
an explicit default on lookup, and the two random primitives
(`random.randint`, `random.uniform`) are passed in as parameters so that every
result is quantified over all admissible draws.  Python's `int()` conversion
truncates toward zero, which `pyint` reproduces exactly.  Reference data
(`CLASSES`, `ITEMS`, `QUESTS`, `ABILITIES`) is loaded from JSON files that are
not part of the source tree, so the corresponding tables are parameters of the
embedded operations.
-/

namespace BDBot

/-- Python `int()` applied to a float value: truncation toward zero. -/
def pyint (q : ℚ) : ℤ := q.num.tdiv q.den

/-- Python `dict.get(key, 0.0)` on a float-valued dict. -/
def dictGetQ (m : List (String × ℚ)) (k : String) : ℚ :=
  match m.find? (fun p => p.1 == k) with
  | some p => p.2
  | none => 0

/-- Python `dict.get(key, 0)` on an int-valued dict. -/
def dictGetNat (m : List (String × ℕ)) (k : String) : ℕ :=
  match m.find? (fun p => p.1 == k) with
  | some p => p.2
  | none => 0

/-- Python `d[key] = v` on a dict: replace the value of an existing key,
otherwise insert the binding at the end. -/
def dictSetNat (m : List (String × ℕ)) (k : String) (v : ℕ) : List (String × ℕ) :=
  if m.any (fun p => p.1 == k) then
    m.map (fun p => if p.1 == k then (k, v) else p)
  else m ++ [(k, v)]

/-- Python `set.add` on a set modelled as a duplicate-free list. -/
def setAdd (s : List String) (x : String) : List String :=
  if x ∈ s then s else s ++ [x]

/-- Embedding of `calculate_single_layer_damage` (src/bot.py lines 369-384).  The
`random.randint(min_dmg, max_dmg)` draw is supplied through `randint`;
`random.randint` raises when `min_dmg > max_dmg`, modelled as `none`. -/
def calculate_single_layer_damage (randint : ℤ → ℤ → ℤ)
    (base_attack multiplier : ℚ) (dmg_type : String)
    (resistances : List (String × ℚ)) : Option ℤ :=
  let raw := base_attack * multiplier
  let res_val := dictGetQ resistances dmg_type
  let res_factor := max 0 (1 - res_val)
  let final_val := raw * res_factor
  let min_dmg := pyint (final_val * (8 / 10))
  let max_dmg := pyint (final_val * (12 / 10))
  if min_dmg ≤ max_dmg then some (max 1 (randint min_dmg max_dmg)) else none

/-- A `randint` parameter is admissible when it returns a value inside the
requested closed interval whenever that interval is non-empty. -/
def RandintOk (randint : ℤ → ℤ → ℤ) : Prop :=
  ∀ a b : ℤ, a ≤ b → a ≤ randint a b ∧ randint a b ≤ b

/-- Player base stats (`player.base_stats` dict with keys health/attack/defense). -/
structure Stats where
  health : ℤ
  attack : ℤ
  defense : ℤ
deriving DecidableEq, Repr, Inhabited

/-- One active effect (`{'name': …, 'stats': …, 'duration': …}`). -/
structure Effect where
  name : String
  stats : List (String × ℤ)
  duration : ℤ
deriving DecidableEq, Repr, Inhabited

/-- The in-memory `Player` record of src/bot.py (the fields touched by the
battle/progression engine; presentation-only fields are omitted). -/
structure Player where
  class_name : Option String
  base_stats : Stats
  base_abilities : List String
  inventory : List String
  equipped_artifacts : List String
  artifact_slots : ℕ
  gold : ℤ
  active_effects : List Effect
  active_quests : List String
  completed_quests : List String
  location : String
  level : ℕ
  experience : ℤ
  kill_count : List (String × ℕ)
  defeated_bosses : List String
  unlocked_cities : List String
  last_location : String
deriving DecidableEq, Repr, Inhabited

/-- One entry of the `CLASSES` reference table: the class's base health
(`base_stats.health`) and the level-gated ability unlock table (`unlocks`,
keyed in the JSON by the stringified level). -/
structure ClassData where
  base_health : ℤ
  unlocks : List (ℕ × List String)
deriving DecidableEq, Repr, Inhabited

/-- One entry of the `ITEMS` reference table (only the `type` field matters
for the equip logic). -/
structure ItemData where
  type : String
deriving DecidableEq, Repr, Inhabited

/-- A reward payload (the `rewards` dict of a quest, enemy, scene or event). -/
structure Rewards where
  experience : Option ℤ
  gold : Option ℤ
  items : List String
deriving DecidableEq, Repr, Inhabited

structure Quest where
  objectives : List (String × ℕ)
  rewards : Rewards
deriving DecidableEq, Repr, Inhabited

/-- Lookup `CLASSES.get(class_name)`; a player with no chosen class looks up `None`,
which misses. -/
def classLookup (classes : List (String × ClassData)) (cn : Option String) :
    Option ClassData :=
  match cn with
  | none => none
  | some n => (classes.find? (fun q => q.1 == n)).map Prod.snd

/-- Lookup `c_data['unlocks'].get(str(level))`: the abilities gated at exactly `lvl`. -/
def classUnlocksAt (cd : Option ClassData) (lvl : ℕ) : List String :=
  match cd with
  | none => []
  | some c =>
    match c.unlocks.find? (fun q => q.1 == lvl) with
    | some q => q.2
    | none => []

/-- The unlock loop `for ability in new_skills: if ability not in base_abilities: append` —
appends each genuinely new ability at the end, skipping known ones. -/
def addNewAbilities (known : List String) (new : List String) : List String :=
  new.foldl (fun acc ab => if ab ∈ acc then acc else acc ++ [ab]) known

/-- One iteration of the level-up `while` loop in `apply_rewards`
(src/bot.py lines 888-905): subtract the threshold, increment the level, add
+2 attack and +10 health, and unlock the class abilities gated at the new
level. -/
def levelUpStep (cd : Option ClassData) (p : Player) : Player :=
  let p1 := { p with
    experience := p.experience - (p.level : ℤ) * 100,
    level := p.level + 1,
    base_stats := { p.base_stats with
      attack := p.base_stats.attack + 2,
      health := p.base_stats.health + 10 } }
  { p1 with base_abilities := addNewAbilities p1.base_abilities (classUnlocksAt cd p1.level) }

/-- The `while experience >= level * 100` loop, driven by explicit fuel.  Each
iteration removes at least 100 experience (the source keeps `level ≥ 1`), so
any fuel exceeding the current experience makes the loop run to completion. -/
def levelUpLoop (cd : Option ClassData) : ℕ → Player → Player
  | 0, p => p
  | fuel + 1, p =>
    if (p.level : ℤ) * 100 ≤ p.experience then levelUpLoop cd fuel (levelUpStep cd p)
    else p

/-- The experience block of `apply_rewards` (src/bot.py lines 882-905):
add the reward, then run the level-up loop. -/
def applyExperienceReward (cd : Option ClassData) (e : ℤ) (p : Player) : Player :=
  let p1 := { p with experience := p.experience + e }
  levelUpLoop cd (p1.experience.toNat + 1) p1

/-- Embedding of `apply_rewards` (src/bot.py lines 874-948) as a transform of the player
record: experience (with the level-up loop), gold, then items (each valid item
id appended to the inventory).  The crystals branch is a no-op because the
player record never exposes a `donate_currency` attribute. -/
def apply_rewards (cd : Option ClassData) (items_table : List (String × ItemData))
    (rw : Rewards) (p : Player) : Player :=
  let p1 := match rw.experience with
    | some e => applyExperienceReward cd e p
    | none => p
  let p2 := match rw.gold with
    | some g => { p1 with gold := p1.gold + g }
    | none => p1
  { p2 with inventory :=
      p2.inventory ++ rw.items.filter (fun i => (items_table.find? (fun q => q.1 == i)).isSome) }

/-- Embedding of `Player.get_max_health` (src/bot.py lines 294-297). -/
def get_max_health (classes : List (String × ClassData)) (p : Player) : ℤ :=
  match classLookup classes p.class_name with
  | none => 100
  | some cd => cd.base_health + ((p.level : ℤ) - 1) * 10

/-- Embedding of `Player.tick_effects` (src/bot.py lines 281-292): decrement every
duration, then remove each effect that reached `≤ 0`. -/
def tick_effects (p : Player) : Player :=
  let decremented := p.active_effects.map (fun e => { e with duration := e.duration - 1 })
  { p with active_effects := decremented.filter (fun e => 0 < e.duration) }

/-- Embedding of `Player.get_all_abilities` (src/bot.py lines 299-311): the set of base
abilities plus every unlock whose level requirement is met. -/
def get_all_abilities (classes : List (String × ClassData)) (p : Player) : List String :=
  let withUnlocks :=
    match classLookup classes p.class_name with
    | some cd =>
      cd.unlocks.foldl
        (fun (acc : List String) (q : ℕ × List String) =>
          if q.1 ≤ p.level then acc ++ q.2 else acc)
        p.base_abilities
    | none => p.base_abilities
  withUnlocks.dedup

/-- Embedding of `Player.equip_artifact` (src/bot.py lines 313-323).  Returns the success
flag and the (possibly unchanged) player record. -/
def equip_artifact (items_table : List (String × ItemData)) (p : Player)
    (item_id : String) : Bool × Player :=
  if item_id ∉ p.inventory then (false, p)
  else if item_id ∈ p.equipped_artifacts then (false, p)
  else
    match (items_table.find? (fun q => q.1 == item_id)).map Prod.snd with
    | none => (false, p)
    | some it =>
      if it.type ≠ "artifact" then (false, p)
      else if p.artifact_slots ≤ p.equipped_artifacts.length then (false, p)
      else (true, { p with equipped_artifacts := p.equipped_artifacts ++ [item_id] })

/-- One active damage-over-time instance on the enemy. -/
structure Dot where
  type : String
  name : String
  damage : ℤ
  duration : ℤ
deriving DecidableEq, Repr, Inhabited

/-- The `dot` payload of an ability definition. -/
structure DotConf where
  type : String
  name : String
  mult : ℚ
  duration : ℤ
deriving DecidableEq, Repr, Inhabited

/-- One damage layer of an ability definition. -/
structure Layer where
  mult : ℚ
  type : String
deriving DecidableEq, Repr, Inhabited

/-- One entry of the `ABILITIES` reference table; absent JSON keys are `none`. -/
structure Ability where
  layers : Option (List Layer)
  dmg_mult : Option ℚ
  max_uses : Option ℕ
  dot : Option DotConf
  heal : Option ℚ
  heal_flat : Option ℤ
  defense_buff : Option ℤ
deriving DecidableEq, Repr, Inhabited

/-- A boss phase override (`enemy["phases"][i]`). -/
structure PhaseData where
  health : ℤ
  attack : ℤ
  name : String
  image : String
  resistances : Option (List (String × ℚ))
deriving DecidableEq, Repr, Inhabited

/-- The mutable enemy snapshot held by a battle (`b['enemy']`).  An enemy
without a `resistances`/`phases` key behaves exactly like one with an empty
value, so those keys are modelled as plain lists. -/
structure Enemy where
  name : String
  image : String
  attack : ℤ
  resistances : List (String × ℚ)
  phases : List PhaseData
  experience : ℤ
  is_boss : Bool
deriving DecidableEq, Repr, Inhabited

/-- The per-conversation battle dict `context.user_data['battle']`. -/
structure BattleState where
  enemy : Enemy
  e_hp : ℤ
  p_hp : ℤ
  e_id : String
  phase : ℕ
  skill_uses : List (String × ℕ)
  active_dots : List Dot
deriving DecidableEq, Repr, Inhabited

/-- The player commands handled by the non-potion branch of `handle_battle`. -/
inductive PlayerAction where
  | attack
  | ability (name : String)
deriving DecidableEq, Repr

/-- The ambient data a battle turn consumes: the `ABILITIES` table and the two
pinned random draws of the turn. -/
structure TurnCtx where
  abilities_table : List (String × Ability)
  randint : ℤ → ℤ → ℤ
  uniform : ℚ

/-- The DoT snapshot damage computed at application time (src/bot.py lines
1117-1120): `int(attack * mult * max(0, 1 - res))` from the caster's current
attack stat and the enemy's current resistance. -/
def dotSnapshotDamage (attack : ℤ) (conf : DotConf)
    (enemy_res : List (String × ℚ)) : ℤ :=
  let dot_raw := (attack : ℚ) * conf.mult
  let dot_res_val := dictGetQ enemy_res conf.type
  pyint (dot_raw * max 0 (1 - dot_res_val))

/-- Mutating the first same-named DoT entry in place (the `existing` branch of
src/bot.py lines 1123-1128). -/
def updateFirstDot : List Dot → String → ℤ → ℤ → List Dot
  | [], _, _, _ => []
  | d :: ds, n, dmg, dur =>
    if d.name == n then { d with damage := dmg, duration := dur } :: ds
    else d :: updateFirstDot ds n dmg dur

/-- DoT application (src/bot.py lines 1112-1136): refresh the first same-named
entry, else append a new one; the stored damage is the snapshot floored at 1. -/
def applyDot (attack : ℤ) (enemy_res : List (String × ℚ)) (conf : DotConf)
    (dots : List Dot) : List Dot :=
  let dot_dmg := dotSnapshotDamage attack conf enemy_res
  if dots.any (fun d => d.name == conf.name) then
    updateFirstDot dots conf.name (max 1 dot_dmg) conf.duration
  else
    dots ++ [{ type := conf.type, name := conf.name, damage := max 1 dot_dmg,
               duration := conf.duration }]

/-- Damage of an ability: the sum of one resolved damage call per layer, or a
single physical call for legacy `dmg_mult` abilities, or 0 when neither key is
present (src/bot.py lines 1096-1107). -/
def sumLayerDamage (randint : ℤ → ℤ → ℤ) (attack : ℚ)
    (enemy_res : List (String × ℚ)) : List Layer → Option ℤ
  | [] => some 0
  | l :: ls => do
    let d ← calculate_single_layer_damage randint attack l.mult l.type enemy_res
    let rest ← sumLayerDamage randint attack enemy_res ls
    pure (d + rest)

def abilityDamage (randint : ℤ → ℤ → ℤ) (attack : ℤ)
    (enemy_res : List (String × ℚ)) (ab : Ability) : Option ℤ :=
  match ab.layers with
  | some ls => sumLayerDamage randint (attack : ℚ) enemy_res ls
  | none =>
    match ab.dmg_mult with
    | some m => calculate_single_layer_damage randint (attack : ℚ) m "physical" enemy_res
    | none => some 0

/-- The player-action block of `handle_battle` (src/bot.py lines 1069-1152):
resolve a basic attack or an ability against the battle state.  `none` models
the paths on which the handler returns without completing a turn (an
exhausted ability, or a `ValueError` from `random.randint`).  An unknown
ability name falls through with zero damage exactly as in the source. -/
def playerPhase (ctx : TurnCtx) (stats_attack : ℤ) (p : Player) (b : BattleState)
    (action : PlayerAction) : Option (BattleState × Player) :=
  let enemy_res := b.enemy.resistances
  match action with
  | .attack => do
    let dmg ← calculate_single_layer_damage ctx.randint (stats_attack : ℚ) 1 "physical" enemy_res
    pure ({ b with e_hp := b.e_hp - dmg }, p)
  | .ability an =>
    match (ctx.abilities_table.find? (fun q => q.1 == an)).map Prod.snd with
    | none => some (b, p)
    | some ab =>
      let uses := dictGetNat b.skill_uses an
      let limit := ab.max_uses.getD 99
      if limit ≤ uses then none
      else do
        let b1 := { b with skill_uses := dictSetNat b.skill_uses an (uses + 1) }
        let total ← abilityDamage ctx.randint stats_attack enemy_res ab
        let b2 := { b1 with e_hp := b1.e_hp - total }
        let b3 := match ab.dot with
          | some conf => { b2 with active_dots := applyDot stats_attack enemy_res conf b2.active_dots }
          | none => b2
        let b4 := match ab.heal with
          | some frac => { b3 with p_hp := b3.p_hp + pyint ((total : ℚ) * frac) }
          | none => b3
        let b5 := match ab.heal_flat with
          | some hf => { b4 with p_hp := b4.p_hp + hf }
          | none => b4
        let p' := match ab.defense_buff with
          | some v => { p with active_effects :=
              p.active_effects ++ [{ name := an, stats := [("defense", v)], duration := 1 }] }
          | none => p
        pure (b5, p')

/-- One iteration of the DoT loop: apply the stored damage to the running
enemy health, decrement the duration, and keep the entry only while its
remaining duration is still above zero. -/
def dotStep (acc : ℤ × List Dot) (dot : Dot) : ℤ × List Dot :=
  let hp := acc.1 - dot.damage
  let d' := { dot with duration := dot.duration - 1 }
  (hp, if 0 < d'.duration then acc.2 ++ [d'] else acc.2)

/-- The DoT phase (src/bot.py lines 1158-1168): every active DoT applies its
stored damage and its remaining duration is decremented, keeping only entries
still above zero. -/
def dotPhase (b : BattleState) : BattleState :=
  let folded := b.active_dots.foldl dotStep (b.e_hp, [])
  { b with e_hp := folded.1, active_dots := folded.2 }

/-- The enemy retaliation formula (src/bot.py lines 1177-1178):
`int(max(1, enemy_attack - player_defense) * uniform(0.9, 1.1))`. -/
def enemy_damage (enemy_attack player_defense : ℤ) (u : ℚ) : ℤ :=
  pyint ((max 1 (enemy_attack - player_defense) : ℤ) * u)

/-- The same formula as the specification words it:
`round(max(1, enemyAttack - playerDefense) * uniform(0.9, 1.1))`, with the
result rounded to the nearest integer. -/
def enemy_damage_claimed (enemy_attack player_defense : ℤ) (u : ℚ) : ℤ :=
  round (((max 1 (enemy_attack - player_defense) : ℤ) : ℚ) * u)

/-- The enemy turn (src/bot.py lines 1176-1179). -/
def enemyPhase (u : ℚ) (stats_defense : ℤ) (b : BattleState) : BattleState :=
  { b with p_hp := b.p_hp - enemy_damage b.enemy.attack stats_defense u }

/-- How a battle turn ends. -/
inductive TurnResult where
  | enemyDead (b : BattleState) (p : Player)
  | playerLost (b : BattleState) (p : Player)
  | next (b : BattleState) (p : Player)
deriving DecidableEq, Repr

/-- The phases a turn executes, in execution order. -/
inductive PhaseTag where
  | playerAction
  | dotTick
  | enemyAttack
  | deathResolution
  | defeatResolution
deriving DecidableEq, Repr

/-- One full battle turn of `handle_battle` (src/bot.py lines 1069-1188) for a
non-potion, non-flee command: player action, enemy-death check, DoT phase
(with its death check, which the source only reaches when at least one DoT
ticked), enemy retaliation, player-defeat check.  Besides the result it
returns the list of executed phases in order. -/
def battleTurn (ctx : TurnCtx) (stats_attack stats_defense : ℤ) (p : Player)
    (b : BattleState) (action : PlayerAction) : Option (TurnResult × List PhaseTag) :=
  match playerPhase ctx stats_attack p b action with
  | none => none
  | some (b1, p1) =>
    if b1.e_hp ≤ 0 then
      some (.enemyDead b1 p1, [.playerAction, .deathResolution])
    else
      let b2 := dotPhase b1
      let dtags : List PhaseTag := if b1.active_dots = [] then [] else [.dotTick]
      if b1.active_dots ≠ [] ∧ b2.e_hp ≤ 0 then
        some (.enemyDead b2 p1, [.playerAction] ++ dtags ++ [.deathResolution])
      else
        let b3 := enemyPhase ctx.uniform stats_defense b2
        if b3.p_hp ≤ 0 then
          some (.playerLost b3 p1, [.playerAction] ++ dtags ++ [.enemyAttack, .defeatResolution])
        else
          some (.next b3 { p1 with base_stats := { p1.base_stats with health := b3.p_hp } },
                [.playerAction] ++ dtags ++ [.enemyAttack])

/-- The potion branch of `handle_battle` (src/bot.py lines 1010-1037):
a pure heal on a full health pool is rejected (`none`), otherwise the item is
consumed, healing is clamped to the computed max health, and any buff becomes
an active effect. -/
def usePotion (classes : List (String × ClassData)) (p : Player) (b : BattleState)
    (item_id item_name : String) (heal : ℤ) (buffs : List (String × ℤ))
    (buff_duration : ℤ) : Option (Player × BattleState) :=
  let max_hp := get_max_health classes p
  if 0 < heal ∧ buffs = [] ∧ max_hp ≤ b.p_hp then none
  else
    let p1 := { p with inventory := p.inventory.erase item_id }
    if 0 < heal then
      let newHp := min max_hp (b.p_hp + heal)
      let p2 := { p1 with base_stats := { p1.base_stats with health := newHp } }
      let b2 := { b with p_hp := newHp }
      if buffs ≠ [] then
        some ({ p2 with active_effects :=
          p2.active_effects ++ [{ name := item_name, stats := buffs,
                                  duration := buff_duration }] }, b2)
      else some (p2, b2)
    else
      if buffs ≠ [] then
        some ({ p1 with active_effects :=
          p1.active_effects ++ [{ name := item_name, stats := buffs,
                                  duration := buff_duration }] }, b)
      else some (p1, b)

/-- Outcome of `handle_enemy_death` (src/bot.py lines 1190-1211): either a
phase transition with the updated battle state, or victory. -/
inductive DeathResult where
  | phaseTransition (b : BattleState)
  | victory
deriving DecidableEq, Repr

/-- Embedding of `handle_enemy_death` (src/bot.py lines 1190-1211).  The source keeps
`phase ≥ 1` (it starts at 1 and is only ever incremented), so under the guard
the index `phase - 1` is always in range; the unreachable out-of-range lookup
falls through to victory. -/
def handle_enemy_death (b : BattleState) : DeathResult :=
  if b.enemy.phases ≠ [] ∧ b.phase ≤ b.enemy.phases.length then
    match b.enemy.phases.get? (b.phase - 1) with
    | some pd =>
      .phaseTransition { b with
        phase := b.phase + 1,
        e_hp := pd.health,
        enemy := { b.enemy with
          attack := pd.attack,
          name := pd.name,
          image := pd.image,
          resistances := pd.resistances.getD b.enemy.resistances } }
    | none => .victory
  else .victory

/-- The quest-completion loop of `win_battle` (src/bot.py lines 1248-1258):
iterate over a snapshot of the active quests, completing every quest whose
kill objectives are all met and paying its rewards. -/
def questLoop (cd : Option ClassData) (items_table : List (String × ItemData))
    (quests_table : List (String × Quest)) (p : Player) : Player :=
  p.active_quests.foldl
    (fun acc q_id =>
      match (quests_table.find? (fun q => q.1 == q_id)).map Prod.snd with
      | none => acc
      | some quest =>
        if quest.objectives.all (fun ob => ob.2 ≤ dictGetNat acc.kill_count ob.1) then
          let acc1 := { acc with
            active_quests := acc.active_quests.erase q_id,
            completed_quests := acc.completed_quests ++ [q_id] }
          apply_rewards cd items_table quest.rewards acc1
        else acc)
    p

/-- The single level-up check inside `win_battle` (src/bot.py lines
1260-1283); unlike `apply_rewards` it is an `if`, not a `while`, and its body
matches one `levelUpStep`. -/
def winLevelCheck (cd : Option ClassData) (p : Player) : Player :=
  if (p.level : ℤ) * 100 ≤ p.experience then levelUpStep cd p else p

/-- Embedding of `win_battle` (src/bot.py lines 1213-1306) as a transform of the player
record: 30% regeneration clamped at max health, effect tick-down, boss
marking (one extra artifact slot and +100 gold), kill recording, quest
completion, the single level-up check, and finally the battle's own
experience/gold rewards. -/
def win_battle (classes : List (String × ClassData))
    (items_table : List (String × ItemData)) (quests_table : List (String × Quest))
    (p : Player) (enemy : Enemy) (e_id : String) : Player :=
  let cd := classLookup classes p.class_name
  let max_hp := get_max_health classes p
  let heal_amt := pyint ((max_hp : ℚ) * (3 / 10))
  let p1 := { p with base_stats := { p.base_stats with
    health := min max_hp (p.base_stats.health + heal_amt) } }
  let p2 := tick_effects p1
  let baseGold := pyint ((enemy.experience : ℚ) * (8 / 10))
  let p3 := if enemy.is_boss then
      { p2 with defeated_bosses := setAdd p2.defeated_bosses e_id,
                artifact_slots := p2.artifact_slots + 1 }
    else p2
  let rw : Rewards := { experience := some enemy.experience,
                        gold := some (if enemy.is_boss then baseGold + 100 else baseGold),
                        items := [] }
  let newKills := dictSetNat p3.kill_count e_id (dictGetNat p3.kill_count e_id + 1)
  let p4 := { p3 with kill_count := newKills }
  let p5 := questLoop cd items_table quests_table p4
  let p6 := winLevelCheck cd p5
  apply_rewards cd items_table rw p6

/-- Dispatch on `handle_enemy_death`: a phase transition keeps the battle
alive and leaves the player record untouched; victory discards the battle and
applies `win_battle`. -/
def resolveEnemyDeath (classes : List (String × ClassData))
    (items_table : List (String × ItemData)) (quests_table : List (String × Quest))
    (p : Player) (b : BattleState) : Player × Option BattleState :=
  match handle_enemy_death b with
  | .phaseTransition b' => (p, some b')
  | .victory => (win_battle classes items_table quests_table p b.enemy b.e_id, none)

/-- The player-record mutations of `lose_battle` (src/bot.py lines
1308-1348): clear all active effects, reset base health to the class formula,
relocate to the camp.  `CLASSES[player.class_name]` raises for a player
without a class, modelled as `none`. -/
def lose_battle (classes : List (String × ClassData)) (p : Player) : Option Player :=
  match classLookup classes p.class_name with
  | none => none
  | some cd => some { p with
      active_effects := [],
      base_stats := { p.base_stats with
        health := cd.base_health + ((p.level : ℤ) - 1) * 10 },
      location := "player_camp" }

/-- The backing store's per-player state (src/database.py): the `players` and
`player_stats` rows plus the per-player secondary tables. -/
structure DbState where
  class_name : Option String
  level : ℕ
  experience : ℤ
  gold : ℤ
  artifact_slots : ℕ
  current_location : String
  last_location : String
  health : ℤ
  attack : ℤ
  defense : ℤ
  inventory : List String
  equipped_items : List String
  active_quests : List String
  completed_quests : List String
  effects : List Effect
  kill_count : List (String × ℕ)
  defeated_bosses : List String
  abilities : List String
  unlocked_locations : List String
deriving DecidableEq, Repr, Inhabited

/-- Embedding of `Player.save` (src/bot.py lines 185-236): `update_player`,
`update_player_stats`, then insert-or-ignore of active quests, abilities and
unlocked locations.  No operation touches the `active_effects` table. -/
def player_save (classes : List (String × ClassData)) (p : Player)
    (db : DbState) : DbState :=
  { db with
    class_name := p.class_name,
    level := p.level,
    experience := p.experience,
    gold := p.gold,
    artifact_slots := p.artifact_slots,
    current_location := p.location,
    last_location := p.last_location,
    health := p.base_stats.health,
    attack := p.base_stats.attack,
    defense := p.base_stats.defense,
    active_quests := p.active_quests.foldl setAdd db.active_quests,
    abilities := (get_all_abilities classes p).foldl setAdd db.abilities,
    unlocked_locations := p.unlocked_cities.foldl setAdd db.unlocked_locations }

/-- Rehydration of a player from the store:
`GameDatabase.get_full_player_data` (src/database.py lines 244-339) feeding
`Player._load_from_db` (src/bot.py lines 127-154). -/
def rehydrate (db : DbState) : Player :=
  { class_name := db.class_name,
    base_stats := { health := db.health, attack := db.attack, defense := db.defense },
    base_abilities := db.abilities,
    inventory := db.inventory,
    equipped_artifacts := db.equipped_items,
    artifact_slots := db.artifact_slots,
    gold := db.gold,
    active_effects := db.effects,
    active_quests := db.active_quests,
    completed_quests := db.completed_quests,
    location := db.current_location,
    level := db.level,
    experience := db.experience,
    kill_count := db.kill_count,
    defeated_bosses := db.defeated_bosses,
    unlocked_cities := db.unlocked_locations,
    last_location := db.last_location }

/-! Concrete instances used to evaluate the embedded operations on the inputs
named by the specification (a fresh player has the default stats of
`Player._create_new_player`). -/

def examplePlayer : Player :=
  { class_name := none,
    base_stats := { health := 100, attack := 10, defense := 5 },
    base_abilities := [],
    inventory := [],
    equipped_artifacts := [],
    artifact_slots := 1,
    gold := 50,
    active_effects := [],
    active_quests := [],
    completed_quests := [],
    location := "village_square",
    level := 1,
    experience := 90,
    kill_count := [],
    defeated_bosses := [],
    unlocked_cities := ["village_square"],
    last_location := "village_square" }

def exampleClasses : List (String × ClassData) :=
  [("warrior", { base_health := 120, unlocks := [(3, ["power_strike"])] })]

def classedPlayer : Player :=
  { examplePlayer with class_name := some "warrior" }

def defeatedPlayer : Player :=
  { classedPlayer with
    active_effects := [],
    base_stats := { classedPlayer.base_stats with health := 120 },
    location := "player_camp" }

def exampleEnemy : Enemy :=
  { name := "slime", image := "img", attack := 6, resistances := [], phases := [],
    experience := 20, is_boss := false }

def exampleBattle : BattleState :=
  { enemy := exampleEnemy, e_hp := 5, p_hp := 100, e_id := "slime", phase := 1,
    skill_uses := [], active_dots := [] }

def exampleCtx : TurnCtx :=
  { abilities_table := [], randint := fun a _ => a, uniform := 1 }

def healAbility : Ability :=
  { layers := none, dmg_mult := none, max_uses := none, dot := none, heal := none,
    heal_flat := some 50, defense_buff := none }

def healCtx : TurnCtx :=
  { abilities_table := [("healing_light", healAbility)], randint := fun a _ => a,
    uniform := 1 }

def potionBattle : BattleState := { exampleBattle with p_hp := 40 }

def potionPlayerAfter : Player :=
  { examplePlayer with base_stats := { examplePlayer.base_stats with health := 70 } }

def potionBattleAfter : BattleState := { potionBattle with p_hp := 70 }

def examplePhase : PhaseData :=
  { health := 80, attack := 12, name := "slime king reborn", image := "img2",
    resistances := some [("fire", 1/2)] }

def bossEnemy : Enemy :=
  { name := "slime king", image := "img", attack := 9, resistances := [],
    phases := [examplePhase], experience := 100, is_boss := true }

def bossBattle : BattleState :=
  { enemy := bossEnemy, e_hp := -2, p_hp := 60, e_id := "slime_king", phase := 1,
    skill_uses := [], active_dots := [] }

def exampleEffect : Effect :=
  { name := "strength_potion", stats := [("attack", 5)], duration := 2 }

def exampleDotConf : DotConf := { type := "poison", name := "venom", mult := 1, duration := 3 }

def exampleDots : List Dot := [{ type := "poison", name := "venom", damage := 3, duration := 2 }]

def exampleItems : List (String × ItemData) := [("ring", { type := "artifact" })]

def fullSlotsPlayer : Player :=
  { examplePlayer with
    inventory := ["ring"],
    equipped_artifacts := ["amulet"],
    artifact_slots := 1 }

def exampleDb : DbState :=
  { class_name := some "warrior", level := 1, experience := 90, gold := 50,
    artifact_slots := 1, current_location := "forest", last_location := "village_square",
    health := 100, attack := 10, defense := 5, inventory := [], equipped_items := [],
    active_quests := [], completed_quests := [], effects := [exampleEffect],
    kill_count := [], defeated_bosses := [], abilities := [],
    unlocked_locations := ["village_square"] }

def effectPlayer : Player :=
  { classedPlayer with active_effects := [exampleEffect] }

end BDBot

namespace BDBot

lemma pyint_of_nonneg {q : ℚ} (h : 0 ≤ q) : pyint q = ⌊q⌋ := by
  rw [Rat.floor_def, pyint]
  exact Int.tdiv_eq_ediv (Rat.num_nonneg.mpr h) (Int.ofNat_nonneg q.den)

lemma calc_ten_physical (randint : ℤ → ℤ → ℤ) (res : List (String × ℚ))
    (h : dictGetQ res "physical" = 0) :
    calculate_single_layer_damage randint 10 1 "physical" res =
      some (max 1 (randint 8 12)) := by
  have h8 : pyint (10 * 1 * max 0 (1 - dictGetQ res "physical") * (8 / 10)) = 8 := by
    rw [h, pyint_of_nonneg (by norm_num)]
    norm_num
  have h12 : pyint (10 * 1 * max 0 (1 - dictGetQ res "physical") * (12 / 10)) = 12 := by
    rw [h, pyint_of_nonneg (by norm_num)]
    norm_num
  simp only [calculate_single_layer_damage, h8, h12]
  rw [if_pos (by norm_num)]

/-- C1: the damage resolver computes `mean = power * multiplier * max 0 (1 - res)`,
draws from the integer range `[⌊mean*0.8⌋, ⌊mean*1.2⌋]` and floors the draw at 1,
so for every non-negative power and multiplier it succeeds with a result `≥ 1`
(also for `power = 0`, where the draw is 0 and the floor yields 1), and for
attack 10, multiplier 1, resistance 0 every possible result lies in `[8, 12]`. -/
theorem damage_resolver_range (randint : ℤ → ℤ → ℤ) (hr : RandintOk randint)
    (power mult : ℚ) (hpow : 0 ≤ power) (hmul : 0 ≤ mult)
    (t : String) (res : List (String × ℚ)) :
    (∃ d : ℤ, calculate_single_layer_damage randint power mult t res = some d ∧
      1 ≤ d ∧
      d = max 1 (randint ⌊power * mult * max 0 (1 - dictGetQ res t) * (8 / 10)⌋
                         ⌊power * mult * max 0 (1 - dictGetQ res t) * (12 / 10)⌋)) ∧
    (∀ d : ℤ, calculate_single_layer_damage randint 10 1 "physical" [("physical", 0)] = some d →
      8 ≤ d ∧ d ≤ 12) ∧
    (∀ t' res', calculate_single_layer_damage randint 0 mult t' res' = some 1) := by
  have hminmax : ∀ (v : ℚ), 0 ≤ v → ⌊v * (8 / 10)⌋ ≤ ⌊v * (12 / 10)⌋ := by
    intro v hv
    apply Int.floor_le_floor
    nlinarith
  refine ⟨?_, ?_, ?_⟩
  · -- general case: succeeds, result ≥ 1, and equals the floored draw
    have hv : 0 ≤ power * mult * max 0 (1 - dictGetQ res t) :=
      mul_nonneg (mul_nonneg hpow hmul) (le_max_left _ _)
    have hle := hminmax _ hv
    have h8 : (0:ℚ) ≤ power * mult * max 0 (1 - dictGetQ res t) * (8 / 10) := by nlinarith
    have h12 : (0:ℚ) ≤ power * mult * max 0 (1 - dictGetQ res t) * (12 / 10) := by nlinarith
    refine ⟨_, ?_, le_max_left _ _, rfl⟩
    simp only [calculate_single_layer_damage, pyint_of_nonneg h8, pyint_of_nonneg h12]
    rw [if_pos hle]
  · -- attack 10, multiplier 1, resistance 0: every result in [8, 12]
    intro d hd
    have heval : dictGetQ [("physical", 0)] "physical" = 0 := by
      simp [dictGetQ, List.find?]
    have h8 : pyint (10 * 1 * max 0 (1 - dictGetQ [("physical", 0)] "physical") * (8 / 10)) = 8 := by
      rw [heval, pyint_of_nonneg (by norm_num)]
      norm_num
    have h12 : pyint (10 * 1 * max 0 (1 - dictGetQ [("physical", 0)] "physical") * (12 / 10)) = 12 := by
      rw [heval, pyint_of_nonneg (by norm_num)]
      norm_num
    simp only [calculate_single_layer_damage, h8, h12] at hd
    rw [if_pos (by norm_num)] at hd
    obtain ⟨h1, h2⟩ := hr 8 12 (by norm_num)
    have hd' : d = max 1 (randint 8 12) := ((Option.some.injEq _ _).mp hd).symm
    subst hd'
    constructor
    · exact le_max_of_le_right h1
    · exact max_le (by omega) h2
  · -- power 0: min = max = 0, the draw is 0, the result is floored up to 1
    intro t' res'
    have h0 : ∀ c : ℚ, pyint (0 * mult * max 0 (1 - dictGetQ res' t') * c) = 0 := by
      intro c
      rw [show (0:ℚ) * mult * max 0 (1 - dictGetQ res' t') * c = 0 by ring]
      rw [pyint_of_nonneg le_rfl]
      exact Int.floor_zero
    simp only [calculate_single_layer_damage, h0]
    rw [if_pos le_rfl]
    obtain ⟨h1, h2⟩ := hr 0 0 le_rfl
    have hz : randint 0 0 = 0 := le_antisymm h2 h1
    rw [hz]
    norm_num

theorem damage_resolver_range_witness :
    calculate_single_layer_damage (fun a _ => a) 10 1 "physical" [("physical", 0)] = some 8 ∧
    (8:ℤ) ≤ 8 ∧ (8:ℤ) ≤ 12 := by
  have hres : dictGetQ [("physical", (0:ℚ))] "physical" = 0 := by
    simp [dictGetQ, List.find?]
  have hc : calculate_single_layer_damage (fun a _ => a) 10 1 "physical" [("physical", 0)] =
      some 8 := by
    rw [calc_ten_physical _ _ hres]
    norm_num [max_def]
  exact ⟨hc,
    (damage_resolver_range (fun a _ => a) (fun a _ h => ⟨le_refl a, h⟩) 10 1
      (by norm_num) (by norm_num) "physical" [("physical", 0)]).2.1 8 hc⟩

lemma levelUpStep_fields (cd : Option ClassData) (p : Player) :
    (levelUpStep cd p).experience = p.experience - (p.level : ℤ) * 100 ∧
    (levelUpStep cd p).level = p.level + 1 ∧
    (levelUpStep cd p).base_stats.health = p.base_stats.health + 10 ∧
    (levelUpStep cd p).base_stats.attack = p.base_stats.attack + 2 := by
  simp [levelUpStep]

lemma levelUpLoop_invariant (cd : Option ClassData) :
    ∀ (fuel : ℕ) (p : Player), 1 ≤ p.level → p.experience < (fuel : ℤ) →
      (levelUpLoop cd fuel p).experience < ((levelUpLoop cd fuel p).level : ℤ) * 100 := by
  intro fuel
  induction fuel with
  | zero =>
    intro p hl hf
    simp only [levelUpLoop]
    have hnn : (0:ℤ) ≤ (p.level : ℤ) * 100 := by positivity
    push_cast at hf
    linarith
  | succ fuel ih =>
    intro p hl hf
    simp only [levelUpLoop]
    by_cases hg : (p.level : ℤ) * 100 ≤ p.experience
    · rw [if_pos hg]
      obtain ⟨he, hlv, -, -⟩ := levelUpStep_fields cd p
      apply ih
      · rw [hlv]; omega
      · rw [he]
        have h1 : (1:ℤ) ≤ (p.level : ℤ) := by exact_mod_cast hl
        have h100 : (100:ℤ) ≤ (p.level : ℤ) * 100 := by nlinarith
        push_cast at hf ⊢
        omega
    · rw [if_neg hg]
      omega

lemma levelUpLoop_stats (cd : Option ClassData) :
    ∀ (fuel : ℕ) (p : Player),
      p.level ≤ (levelUpLoop cd fuel p).level ∧
      (levelUpLoop cd fuel p).base_stats.health =
        p.base_stats.health + 10 * (((levelUpLoop cd fuel p).level : ℤ) - (p.level : ℤ)) ∧
      (levelUpLoop cd fuel p).base_stats.attack =
        p.base_stats.attack + 2 * (((levelUpLoop cd fuel p).level : ℤ) - (p.level : ℤ)) := by
  intro fuel
  induction fuel with
  | zero =>
    intro p
    simp only [levelUpLoop]
    exact ⟨le_refl _, by ring, by ring⟩
  | succ fuel ih =>
    intro p
    simp only [levelUpLoop]
    by_cases hg : (p.level : ℤ) * 100 ≤ p.experience
    · rw [if_pos hg]
      obtain ⟨hlev, hh, ha⟩ := ih (levelUpStep cd p)
      obtain ⟨-, hl2, hh2, ha2⟩ := levelUpStep_fields cd p
      refine ⟨?_, ?_, ?_⟩
      · rw [hl2] at hlev; omega
      · rw [hh, hh2, hl2]; push_cast; ring
      · rw [ha, ha2, hl2]; push_cast; ring
    · rw [if_neg hg]
      exact ⟨le_refl _, by ring, by ring⟩

lemma nodup_append_single {l : List String} {a : String} (h : l.Nodup) (ha : a ∉ l) :
    (l ++ [a]).Nodup := by
  rw [List.nodup_append]
  refine ⟨h, List.nodup_singleton a, ?_⟩
  intro x hx hmem
  simp only [List.mem_singleton] at hmem
  exact ha (hmem ▸ hx)

lemma addNewAbilities_nodup :
    ∀ (new known : List String), known.Nodup → (addNewAbilities known new).Nodup := by
  intro new
  induction new with
  | nil => intro known h; simpa [addNewAbilities] using h
  | cons ab tl ih =>
    intro known h
    simp only [addNewAbilities, List.foldl_cons]
    by_cases hab : ab ∈ known
    · rw [if_pos hab]
      exact ih known h
    · rw [if_neg hab]
      exact ih (known ++ [ab]) (nodup_append_single h hab)

lemma levelUpLoop_nodup (cd : Option ClassData) :
    ∀ (fuel : ℕ) (p : Player), p.base_abilities.Nodup →
      (levelUpLoop cd fuel p).base_abilities.Nodup := by
  intro fuel
  induction fuel with
  | zero => intro p h; simpa [levelUpLoop] using h
  | succ fuel ih =>
    intro p h
    simp only [levelUpLoop]
    by_cases hg : (p.level : ℤ) * 100 ≤ p.experience
    · rw [if_pos hg]
      apply ih
      simp only [levelUpStep]
      exact addNewAbilities_nodup _ _ h
    · rw [if_neg hg]
      exact h

/-- C2 (amended): for every experience reward and starting state with
`experience < level*100`, the reward is added and the `while` loop repeatedly
subtracts `level*100`, increments the level, adds +10 health and +2 attack,
and unlocks level-gated abilities without duplicates; afterwards
`experience < level*100` holds again and multiple levels can be gained in one
call — but the spec's concrete example (level 1, experience 90, reward 250)
ends at level 3 with 40 experience, not at level 4. -/
theorem experience_reward_leveling (cd : Option ClassData) (e : ℤ) (p : Player)
    (hl : 1 ≤ p.level) (hinv : p.experience < (p.level : ℤ) * 100)
    (hnd : p.base_abilities.Nodup) :
    ((applyExperienceReward cd e p).experience <
      ((applyExperienceReward cd e p).level : ℤ) * 100) ∧
    p.level ≤ (applyExperienceReward cd e p).level ∧
    ((applyExperienceReward cd e p).base_stats.health =
      p.base_stats.health + 10 * (((applyExperienceReward cd e p).level : ℤ) - (p.level : ℤ))) ∧
    ((applyExperienceReward cd e p).base_stats.attack =
      p.base_stats.attack + 2 * (((applyExperienceReward cd e p).level : ℤ) - (p.level : ℤ))) ∧
    (applyExperienceReward cd e p).base_abilities.Nodup ∧
    (applyExperienceReward none 250 examplePlayer).level = 3 ∧
    (applyExperienceReward none 250 examplePlayer).experience = 40 := by
  have hfuel : ({ p with experience := p.experience + e } : Player).experience <
      ((({ p with experience := p.experience + e } : Player).experience.toNat + 1 : ℕ) : ℤ) := by
    push_cast
    linarith [Int.self_le_toNat (p.experience + e)]
  refine ⟨?_, ?_, ?_, ?_, ?_, by decide, by decide⟩
  · exact levelUpLoop_invariant cd _ { p with experience := p.experience + e } hl hfuel
  · exact (levelUpLoop_stats cd _ { p with experience := p.experience + e }).1
  · exact (levelUpLoop_stats cd _ { p with experience := p.experience + e }).2.1
  · exact (levelUpLoop_stats cd _ { p with experience := p.experience + e }).2.2
  · exact levelUpLoop_nodup cd _ { p with experience := p.experience + e } hnd

/-- C2 counterexample: starting at level 1 with experience 90, a reward of
250 yields level 3 (two thresholds crossed: 100, then 200), not level 4 as
the claim states. -/
theorem experience_reward_level4_cex :
    (applyExperienceReward none 250 examplePlayer).level = 3 ∧
    (applyExperienceReward none 250 examplePlayer).level ≠ 4 := by
  constructor <;> decide

theorem experience_reward_leveling_witness :
    (applyExperienceReward none 250 examplePlayer).experience <
      ((applyExperienceReward none 250 examplePlayer).level : ℤ) * 100 :=
  (experience_reward_leveling none 250 examplePlayer (by decide) (by decide) (by decide)).1

/-- C3 counterexample: at enemy attack 1, player defense 0 and variance draw
u = 0.9 the source computes `int(1 * 0.9) = 0`, while the claimed
round-to-nearest formula gives `round(0.9) = 1`. -/
theorem enemy_retaliation_round_cex :
    enemy_damage 1 0 (9/10) = 0 ∧
    enemy_damage_claimed 1 0 (9/10) = 1 ∧
    enemy_damage 1 0 (9/10) ≠ enemy_damage_claimed 1 0 (9/10) ∧
    (9/10 : ℚ) ∈ Set.Icc (9/10 : ℚ) (11/10) := by
  have harg : ((max 1 ((1:ℤ) - 0) : ℤ) : ℚ) * (9/10) = 9/10 := by
    norm_num [max_self]
  have h0 : enemy_damage 1 0 (9/10) = 0 := by
    rw [enemy_damage, harg, pyint_of_nonneg (by norm_num)]
    norm_num
  have h1 : enemy_damage_claimed 1 0 (9/10) = 1 := by
    rw [enemy_damage_claimed, harg, round_eq]
    norm_num
  exact ⟨h0, h1, by rw [h0, h1]; decide, Set.mem_Icc.mpr ⟨le_refl _, by norm_num⟩⟩

/-- C3 (amended): for every enemy attack A, player defense D and variance
draw u ∈ [0.9, 1.1], the retaliation damage equals `⌊max(1, A − D) · u⌋` —
the base damage is floored at 1 before the variance factor is applied and the
product is truncated toward zero (equal to the floor here, the product being
nonnegative), not rounded to the nearest integer. -/
theorem enemy_retaliation_formula (A D : ℤ) (u : ℚ)
    (hu1 : 9/10 ≤ u) (hu2 : u ≤ 11/10) :
    enemy_damage A D u = ⌊((max 1 (A - D) : ℤ) : ℚ) * u⌋ ∧
    (∀ (b : BattleState) (df : ℤ),
      (enemyPhase u df b).p_hp = b.p_hp - enemy_damage b.enemy.attack df u) := by
  constructor
  · have h1 : (1:ℤ) ≤ max 1 (A - D) := le_max_left _ _
    have hq : (0:ℚ) ≤ ((max 1 (A - D) : ℤ) : ℚ) * u := by
      apply mul_nonneg
      · exact_mod_cast le_trans zero_le_one h1
      · linarith
    exact pyint_of_nonneg hq
  · intro b df
    rfl

theorem enemy_retaliation_formula_witness :
    enemy_damage 5 2 1 = ⌊((max 1 ((5:ℤ) - 2) : ℤ) : ℚ) * 1⌋ :=
  (enemy_retaliation_formula 5 2 1 (by norm_num) (by norm_num)).1

lemma playerPhase_attack (ctx : TurnCtx) (atk : ℤ) (p : Player) (b : BattleState) (d : ℤ)
    (h : calculate_single_layer_damage ctx.randint (atk : ℚ) 1 "physical"
      b.enemy.resistances = some d) :
    playerPhase ctx atk p b .attack = some ({ b with e_hp := b.e_hp - d }, p) := by
  simp [playerPhase, h]

lemma example_attack_calc :
    calculate_single_layer_damage exampleCtx.randint ((10:ℤ) : ℚ) 1 "physical"
      exampleBattle.enemy.resistances = some 8 := by
  have h : dictGetQ [] "physical" = 0 := by simp [dictGetQ, List.find?]
  have h2 := calc_ten_physical exampleCtx.randint [] h
  have h3 : ((10:ℤ) : ℚ) = 10 := by norm_num
  rw [show exampleBattle.enemy.resistances = [] from rfl, h3, h2]
  norm_num [exampleCtx, max_def]

lemma example_attack_eval :
    playerPhase exampleCtx 10 examplePlayer exampleBattle .attack =
      some ({ exampleBattle with e_hp := -3 }, examplePlayer) := by
  rw [playerPhase_attack exampleCtx 10 examplePlayer exampleBattle 8 example_attack_calc]
  decide

/-- C4: within one battle turn the phase order is fixed — the trace is always
`playerAction` followed by (optionally) `dotTick`, then either
`deathResolution` or `enemyAttack` with an optional final `defeatResolution` —
and when the enemy's health is `≤ 0` immediately after the player's action
resolves, death resolution runs on exactly the post-action state: neither the
DoT phase nor the enemy turn executes in that turn. -/
theorem battle_turn_order (ctx : TurnCtx) (atk df : ℤ) (p p1 : Player)
    (b b1 : BattleState) (a : PlayerAction)
    (h : playerPhase ctx atk p b a = some (b1, p1)) :
    (b1.e_hp ≤ 0 →
      battleTurn ctx atk df p b a =
        some (.enemyDead b1 p1, [.playerAction, .deathResolution])) ∧
    (0 < b1.e_hp →
      ∃ r tags, battleTurn ctx atk df p b a = some (r, .playerAction :: tags) ∧
        (tags = [.dotTick, .deathResolution] ∨
         tags = [.dotTick, .enemyAttack] ∨
         tags = [.dotTick, .enemyAttack, .defeatResolution] ∨
         tags = [.enemyAttack] ∨
         tags = [.enemyAttack, .defeatResolution])) := by
  constructor
  · intro hdead
    simp only [battleTurn, h]
    rw [if_pos hdead]
  · intro hpos
    simp only [battleTurn, h]
    rw [if_neg (not_le.mpr hpos)]
    by_cases hd : b1.active_dots ≠ [] ∧ (dotPhase b1).e_hp ≤ 0
    · rw [if_pos hd]
      obtain ⟨hne, -⟩ := hd
      rw [if_neg hne]
      exact ⟨_, [.dotTick, .deathResolution], rfl, by simp⟩
    · rw [if_neg hd]
      by_cases hp2 : (enemyPhase ctx.uniform df (dotPhase b1)).p_hp ≤ 0
      · rw [if_pos hp2]
        by_cases hne : b1.active_dots = []
        · rw [if_pos hne]
          exact ⟨_, [.enemyAttack, .defeatResolution], rfl, by simp⟩
        · rw [if_neg hne]
          exact ⟨_, [.dotTick, .enemyAttack, .defeatResolution], rfl, by simp⟩
      · rw [if_neg hp2]
        by_cases hne : b1.active_dots = []
        · rw [if_pos hne]
          exact ⟨_, [.enemyAttack], rfl, by simp⟩
        · rw [if_neg hne]
          exact ⟨_, [.dotTick, .enemyAttack], rfl, by simp⟩

theorem battle_turn_order_witness :
    battleTurn exampleCtx 10 5 examplePlayer exampleBattle .attack =
      some (.enemyDead { exampleBattle with e_hp := -3 } examplePlayer,
            [.playerAction, .deathResolution]) :=
  (battle_turn_order exampleCtx 10 5 examplePlayer examplePlayer
      exampleBattle { exampleBattle with e_hp := -3 } .attack
      example_attack_eval).1 (by decide)

lemma updateFirstDot_length :
    ∀ (dots : List Dot) (n : String) (dmg dur : ℤ),
      (updateFirstDot dots n dmg dur).length = dots.length := by
  intro dots n dmg dur
  induction dots with
  | nil => rfl
  | cons d ds ih =>
    simp only [updateFirstDot]
    split
    · simp
    · simp [ih]

lemma updateFirstDot_eq_set :
    ∀ (dots : List Dot) (n : String) (dmg dur : ℤ),
      dots.any (fun d => d.name == n) = true →
      updateFirstDot dots n dmg dur =
        dots.set (dots.findIdx (fun d => d.name == n))
          { dots.getD (dots.findIdx (fun d => d.name == n)) default with
            damage := dmg, duration := dur } := by
  intro dots n dmg dur h
  induction dots with
  | nil => simp at h
  | cons d ds ih =>
    by_cases hd : (d.name == n) = true
    · simp [updateFirstDot, List.findIdx_cons, hd]
    · have hb : (d.name == n) = false := by simpa using hd
      have hany : ds.any (fun d => d.name == n) = true := by
        simpa [List.any_cons, hb] using h
      simp [updateFirstDot, List.findIdx_cons, hb, ih hany]

lemma dotStep_eta (hp : ℤ) (acc : List Dot) (d : Dot) :
    dotStep (hp, acc) d = (hp - d.damage, (dotStep (hp, acc) d).2) := rfl

lemma dotFold_fst :
    ∀ (l : List Dot) (hp : ℤ) (acc : List Dot),
      (l.foldl dotStep (hp, acc)).1 = hp - (l.map (fun d => d.damage)).sum := by
  intro l
  induction l with
  | nil => intro hp acc; simp
  | cons d ds ih =>
    intro hp acc
    rw [List.foldl_cons, dotStep_eta, ih]
    simp only [List.map_cons, List.sum_cons]
    omega

lemma dotFold_snd :
    ∀ (l : List Dot) (hp : ℤ) (acc : List Dot),
      (l.foldl dotStep (hp, acc)).2 =
        acc ++ (l.map (fun d => { d with duration := d.duration - 1 })).filter
          (fun d => 0 < d.duration) := by
  intro l
  induction l with
  | nil => intro hp acc; simp
  | cons d ds ih =>
    intro hp acc
    rw [List.foldl_cons]
    by_cases hdur : 0 < d.duration - 1
    · rw [show dotStep (hp, acc) d =
          (hp - d.damage, acc ++ [{ d with duration := d.duration - 1 }]) from by
            simp [dotStep, hdur]]
      rw [ih]
      simp [hdur, List.filter_cons, List.append_assoc]
    · rw [show dotStep (hp, acc) d = (hp - d.damage, acc) from by simp [dotStep, hdur]]
      rw [ih]
      simp [hdur, List.filter_cons]

lemma dotPhase_spec (b : BattleState) :
    (dotPhase b).e_hp = b.e_hp - (b.active_dots.map (fun d => d.damage)).sum ∧
    (dotPhase b).active_dots =
      (b.active_dots.map (fun d => { d with duration := d.duration - 1 })).filter
        (fun d => 0 < d.duration) := by
  constructor
  · simp only [dotPhase]
    exact dotFold_fst b.active_dots b.e_hp []
  · simp only [dotPhase]
    rw [dotFold_snd b.active_dots b.e_hp []]
    simp

/-- C5: applying an ability's DoT refreshes the first same-named entry in
place (the list length does not grow), updating its duration and its stored
per-tick damage; otherwise it appends a new entry.  The stored damage is the
snapshot `max 1 (int(attack · mult · max(0, 1 − res)))` from the caster's
current attack and the enemy's current resistance at application time, and
each tick subtracts exactly the stored values from enemy health while
decrementing tick counts, discarding entries that reach zero. -/
theorem dot_refresh_and_tick (atk : ℤ) (res : List (String × ℚ)) (conf : DotConf)
    (dots : List Dot) (b : BattleState) :
    (dots.any (fun d => d.name == conf.name) = true →
      (applyDot atk res conf dots).length = dots.length ∧
      applyDot atk res conf dots =
        dots.set (dots.findIdx (fun d => d.name == conf.name))
          { dots.getD (dots.findIdx (fun d => d.name == conf.name)) default with
            damage := max 1 (dotSnapshotDamage atk conf res),
            duration := conf.duration }) ∧
    (dots.any (fun d => d.name == conf.name) = false →
      applyDot atk res conf dots =
        dots ++ [{ type := conf.type, name := conf.name,
                   damage := max 1 (dotSnapshotDamage atk conf res),
                   duration := conf.duration }]) ∧
    ((dotPhase b).e_hp = b.e_hp - (b.active_dots.map (fun d => d.damage)).sum) ∧
    ((dotPhase b).active_dots =
      (b.active_dots.map (fun d => { d with duration := d.duration - 1 })).filter
        (fun d => 0 < d.duration)) := by
  refine ⟨?_, ?_, (dotPhase_spec b).1, (dotPhase_spec b).2⟩
  · intro h
    constructor
    · simp only [applyDot, h, if_pos]
      exact updateFirstDot_length dots conf.name _ _
    · simp only [applyDot, h, if_pos]
      exact updateFirstDot_eq_set dots conf.name _ _ h
  · intro h
    simp [applyDot, h]

theorem dot_refresh_and_tick_witness :
    (applyDot 10 [] exampleDotConf exampleDots).length = exampleDots.length :=
  ((dot_refresh_and_tick 10 [] exampleDotConf exampleDots exampleBattle).1 (by decide)).1

/-- C6: while the phase counter is within the declared phase range, bringing
the enemy's health to `≤ 0` advances the phase counter (it strictly
increases), replaces enemy health, attack, name, image (and resistances when
the override provides them) from the phase data, and grants no victory
rewards — the player record is returned exactly unchanged; `win_battle` runs
only once the phases are exhausted. -/
theorem phase_transition_no_rewards (classes : List (String × ClassData))
    (items_table : List (String × ItemData)) (quests_table : List (String × Quest))
    (p : Player) (b : BattleState) (hphase : 1 ≤ b.phase) :
    (b.phase ≤ b.enemy.phases.length →
      ∃ pd, b.enemy.phases.get? (b.phase - 1) = some pd ∧
        resolveEnemyDeath classes items_table quests_table p b =
          (p, some { b with
            phase := b.phase + 1,
            e_hp := pd.health,
            enemy := { b.enemy with
              attack := pd.attack, name := pd.name, image := pd.image,
              resistances := pd.resistances.getD b.enemy.resistances } }) ∧
        b.phase < b.phase + 1) ∧
    (b.enemy.phases.length < b.phase →
      resolveEnemyDeath classes items_table quests_table p b =
        (win_battle classes items_table quests_table p b.enemy b.e_id, none)) := by
  constructor
  · intro hle
    have hidx : b.phase - 1 < b.enemy.phases.length := by omega
    obtain ⟨pd, hpd⟩ : ∃ pd, b.enemy.phases.get? (b.phase - 1) = some pd :=
      ⟨_, List.get?_eq_get hidx⟩
    have hne : b.enemy.phases ≠ [] := by
      intro h0
      rw [h0] at hidx
      simp at hidx
    refine ⟨pd, hpd, ?_, by omega⟩
    simp only [resolveEnemyDeath, handle_enemy_death]
    rw [if_pos ⟨hne, hle⟩, hpd]
  · intro hgt
    simp only [resolveEnemyDeath, handle_enemy_death]
    rw [if_neg]
    intro hand
    omega

theorem phase_transition_no_rewards_witness :
    ∃ pd, bossBattle.enemy.phases.get? (bossBattle.phase - 1) = some pd ∧
      resolveEnemyDeath [] [] [] examplePlayer bossBattle =
        (examplePlayer, some { bossBattle with
          phase := bossBattle.phase + 1,
          e_hp := pd.health,
          enemy := { bossBattle.enemy with
            attack := pd.attack, name := pd.name, image := pd.image,
            resistances := pd.resistances.getD bossBattle.enemy.resistances } }) ∧
      bossBattle.phase < bossBattle.phase + 1 :=
  (phase_transition_no_rewards [] [] [] examplePlayer bossBattle (by decide)).1 (by decide)

/-- C7: when defeat resolution runs, the player's active effects become
empty, base health is reset to the class base health plus `(level−1)*10`, and
the player is relocated to the camp — while gold, inventory, experience and
level are left exactly unchanged. -/
theorem defeat_resets_player (classes : List (String × ClassData)) (p q : Player)
    (h : lose_battle classes p = some q) :
    q.active_effects = [] ∧
    (∃ cd, classLookup classes p.class_name = some cd ∧
      q.base_stats.health = cd.base_health + ((p.level : ℤ) - 1) * 10) ∧
    q.location = "player_camp" ∧
    q.gold = p.gold ∧
    q.inventory = p.inventory ∧
    q.experience = p.experience ∧
    q.level = p.level := by
  cases hcl : classLookup classes p.class_name with
  | none =>
    simp only [lose_battle, hcl] at h
    exact Option.noConfusion h
  | some cd =>
    simp only [lose_battle, hcl] at h
    have hq : q = { p with
        active_effects := [],
        base_stats := { p.base_stats with
          health := cd.base_health + ((p.level : ℤ) - 1) * 10 },
        location := "player_camp" } := ((Option.some.injEq _ _).mp h).symm
    subst hq
    exact ⟨rfl, ⟨cd, rfl, rfl⟩, rfl, rfl, rfl, rfl, rfl⟩

theorem defeat_resets_player_witness :
    defeatedPlayer.active_effects = [] ∧
    (∃ cd, classLookup exampleClasses classedPlayer.class_name = some cd ∧
      defeatedPlayer.base_stats.health = cd.base_health + ((classedPlayer.level : ℤ) - 1) * 10) ∧
    defeatedPlayer.location = "player_camp" ∧
    defeatedPlayer.gold = classedPlayer.gold ∧
    defeatedPlayer.inventory = classedPlayer.inventory ∧
    defeatedPlayer.experience = classedPlayer.experience ∧
    defeatedPlayer.level = classedPlayer.level :=
  defeat_resets_player exampleClasses classedPlayer defeatedPlayer (by decide)

/-- C8: with the equipped-artifact list already at (or beyond) the slot
capacity, an equip attempt fails and leaves `equipped_artifacts` exactly
unchanged; every successful equip appends exactly one artifact and keeps
`len(equipped_artifacts) ≤ artifact_slots`. -/
theorem equip_artifact_slot_limit (items_table : List (String × ItemData))
    (p : Player) (item_id : String) :
    (p.artifact_slots ≤ p.equipped_artifacts.length →
      equip_artifact items_table p item_id = (false, p)) ∧
    ((equip_artifact items_table p item_id).1 = true →
      (equip_artifact items_table p item_id).2.equipped_artifacts =
        p.equipped_artifacts ++ [item_id] ∧
      (equip_artifact items_table p item_id).2.equipped_artifacts.length ≤
        p.artifact_slots) := by
  by_cases h1 : item_id ∉ p.inventory
  · constructor
    · intro hs; simp [equip_artifact, h1]
    · simp [equip_artifact, h1]
  by_cases h2 : item_id ∈ p.equipped_artifacts
  · constructor
    · intro hs; simp [equip_artifact, h1, h2]
    · simp [equip_artifact, h1, h2]
  cases hfind : (items_table.find? (fun q => q.1 == item_id)).map Prod.snd with
  | none =>
    constructor
    · intro hs; simp [equip_artifact, h1, h2, hfind]
    · simp [equip_artifact, h1, h2, hfind]
  | some it =>
    by_cases h3 : it.type ≠ "artifact"
    · constructor
      · intro hs; simp [equip_artifact, h1, h2, hfind, h3]
      · simp [equip_artifact, h1, h2, hfind, h3]
    by_cases h4 : p.artifact_slots ≤ p.equipped_artifacts.length
    · constructor
      · intro hs; simp [equip_artifact, h1, h2, hfind, h3, h4]
      · simp [equip_artifact, h1, h2, hfind, h3, h4]
    · constructor
      · intro hs; exact absurd hs h4
      · simp only [equip_artifact, h1, h2, hfind, h3, h4]
        simp
        omega

theorem equip_artifact_slot_limit_witness :
    equip_artifact exampleItems fullSlotsPlayer "ring" = (false, fullSlotsPlayer) :=
  (equip_artifact_slot_limit exampleItems fullSlotsPlayer "ring").1 (by decide)

/-- C9: an ability's heal component is added to the battle-local health with
no clamp — on a concrete battle state the post-ability health 150 exceeds the
computed maximum 100 — whereas in-battle potion healing is always clamped to
the computed maximum health. -/
theorem ability_heal_not_clamped :
    (∃ b1 p1, playerPhase healCtx 10 examplePlayer exampleBattle (.ability "healing_light") =
        some (b1, p1) ∧
      get_max_health [] examplePlayer = 100 ∧
      exampleBattle.p_hp = 100 ∧
      b1.p_hp = 150 ∧
      get_max_health [] examplePlayer < b1.p_hp) ∧
    (∀ (classes : List (String × ClassData)) (p : Player) (b : BattleState)
      (item_id item_name : String) (heal buff_duration : ℤ) (p2 : Player) (b2 : BattleState),
      usePotion classes p b item_id item_name heal [] buff_duration = some (p2, b2) →
      0 < heal → b2.p_hp ≤ get_max_health classes p) := by
  constructor
  · refine ⟨{ exampleBattle with skill_uses := [("healing_light", 1)], p_hp := 150 },
      examplePlayer, by decide, by decide, by decide, by decide, by decide⟩
  · intro classes p b item_id item_name heal buff_duration p2 b2 hsome hheal
    simp only [usePotion] at hsome
    by_cases hfull : get_max_health classes p ≤ b.p_hp
    · rw [if_pos ⟨hheal, trivial, hfull⟩] at hsome
      exact Option.noConfusion hsome
    · rw [if_neg (fun hand => hfull hand.2.2), if_pos hheal,
        if_neg (fun hne => hne rfl)] at hsome
      have hpair := (Option.some.injEq _ _).mp hsome
      have hb2 : ({ b with p_hp := min (get_max_health classes p) (b.p_hp + heal) }
          : BattleState) = b2 := congrArg Prod.snd hpair
      rw [← hb2]
      exact min_le_left _ _

theorem ability_heal_not_clamped_witness :
    potionBattleAfter.p_hp ≤ get_max_health [] examplePlayer :=
  ability_heal_not_clamped.2 [] examplePlayer potionBattle "p" "beer" 30 1
    potionPlayerAfter potionBattleAfter (by decide) (by decide)

lemma lose_battle_some (classes : List (String × ClassData)) (p q : Player)
    (h : lose_battle classes p = some q) :
    ∃ cd, classLookup classes p.class_name = some cd ∧
      q = { p with
        active_effects := [],
        base_stats := { p.base_stats with
          health := cd.base_health + ((p.level : ℤ) - 1) * 10 },
        location := "player_camp" } := by
  cases hcl : classLookup classes p.class_name with
  | none =>
    simp only [lose_battle, hcl] at h
    exact Option.noConfusion h
  | some cd =>
    simp only [lose_battle, hcl] at h
    exact ⟨cd, rfl, ((Option.some.injEq _ _).mp h).symm⟩

/-- C10: defeat resolution clears effects only in memory — `lose_battle`
issues no store operation and `Player.save` never writes the effects table —
so after the post-defeat save the store still holds the pre-defeat effects
and rehydrating the player from it restores exactly the effects defeat had
cleared. -/
theorem defeat_effect_persistence (classes : List (String × ClassData))
    (db : DbState) (p q : Player)
    (hsync : db.effects = p.active_effects)
    (h : lose_battle classes p = some q) :
    q.active_effects = [] ∧
    (player_save classes q db).effects = p.active_effects ∧
    (rehydrate (player_save classes q db)).active_effects = p.active_effects := by
  obtain ⟨cd, -, hq⟩ := lose_battle_some classes p q h
  subst hq
  refine ⟨rfl, ?_, ?_⟩
  · show db.effects = p.active_effects
    exact hsync
  · show db.effects = p.active_effects
    exact hsync

theorem defeat_effect_persistence_witness :
    defeatedPlayer.active_effects = [] ∧
    (player_save exampleClasses defeatedPlayer exampleDb).effects =
      effectPlayer.active_effects ∧
    (rehydrate (player_save exampleClasses defeatedPlayer exampleDb)).active_effects =
      effectPlayer.active_effects :=
  defeat_effect_persistence exampleClasses exampleDb effectPlayer defeatedPlayer
    (by decide) (by decide)

end BDBot
